import Mathlib

/-!
Verification development for the CDSS-Prosthesis repository.

The repository ships a React frontend (`src/frontend`) together with the
shared API type declarations (`src/api.ts`).  The Python planning engine
itself (span detection, option generation, rule evaluation, scoring and
plan composition) is not part of the checked-in sources; where a property
is decided by that engine, the engine is modelled from the specification
(each such definition carries a doc comment starting `Modelled from the
spec:`).  Everything else below is a direct shallow embedding of the
TypeScript sources.
-/

namespace CDSS

/-! ## Data model (from `src/api.ts`) -/

/-- `RuleHit` from `api.ts`: `{ absolute: string[]; relative: string[] }`. -/
structure RuleHit where
  absolute : List String
  relative : List String
deriving DecidableEq, Repr

/-- The `abutments` object inside an option's `meta`
(`{ mesial: string | null; distal: string | null }`). -/
structure MetaAbutments where
  mesial : Option String
  distal : Option String
deriving DecidableEq, Repr

/-- The untyped `meta: Record<string, any>` of an `OptionCard`, restricted to
the keys the frontend actually reads (`site`, `pontic`, `required_abutment`,
`abutments`); an absent key is `none`. -/
structure OptionMeta where
  site : Option String
  pontic : Option String
  required_abutment : Option String
  abutments : Option MetaAbutments
deriving DecidableEq, Repr

/-- `OptionCard` from `api.ts`.  `rank_score?` is optional (added by the
scorer), hence `Option Nat`. -/
structure OptionCard where
  option_id : String
  family : String
  kind : String
  span_id : String
  arch : String
  span_type : String
  length : Nat
  rule_hits : RuleHit
  meta : OptionMeta
  rank_score : Option Nat
deriving DecidableEq, Repr

/-- One element of `PlanResponse.case_plans` from `api.ts`:
`{ plan_id, selected: Record<span_id, option_id>, total_score, plan_rule_hits }`.
The JS object `selected` is modelled as an association list preserving key
order. -/
structure CasePlan where
  plan_id : String
  selected : List (String × String)
  total_score : Nat
  plan_rule_hits : RuleHit
deriving DecidableEq, Repr

/-- An arch summary from `api.ts`:
`{ kennedy_class: string; modifications: number }`. -/
structure ArchSummary where
  kennedy_class : String
  modifications : Nat
deriving DecidableEq, Repr

/-- One entry of `provenance.discarded_absolute`: a discarded candidate with
the option id and the triggering absolute rule ids (the frontend reads it
best-effort through keys `rule_ids` / `absolute` / `rules` /
`rule_hits.absolute`, here normalised to one list). -/
structure DiscardedItem where
  option_id : String
  rule_ids : List String
deriving DecidableEq, Repr

/-- The parts of the untyped `provenance: any` that the frontend reads:
`engine_version`, `ruleset_version` and `discarded_absolute` (a map from span
id to discarded items). -/
structure ProvenanceData where
  engine_version : Option String
  ruleset_version : Option String
  discarded_absolute : Option (List (String × List DiscardedItem))
deriving DecidableEq, Repr

/-- `PlanResponse` from `api.ts`.  JS objects keyed by span id are modelled
as association lists preserving key order. -/
structure PlanResponse where
  arch_summaries : List (String × ArchSummary)
  span_options : List (String × List OptionCard)
  case_plans : List CasePlan
  provenance : Option ProvenanceData
  scoring_policy : String
  relative_rules_snapshot : List String
deriving DecidableEq, Repr

/-- `EnumsResponse` from `api.ts`: eight lists of `[value, label]` pairs. -/
structure EnumsResponse where
  status_options : List (String × String)
  mobility_options : List (String × String)
  crr_options : List (String × String)
  caries_options : List (String × String)
  occlusion_options : List (String × String)
  parafunction_options : List (String × String)
  opposing_options : List (String × String)
  systemic_options : List (String × String)
deriving DecidableEq, Repr

/-- `AbutHealth` from `src/store.ts`. -/
structure AbutHealth where
  status : String
  mobility_miller : String
  crown_root_ratio : String
  enamel_ok_for_rbb : Bool
deriving DecidableEq, Repr

/-- `PatientRisk` from `src/store.ts`. -/
structure PatientRisk where
  caries_risk : String
  occlusal_scheme : String
  parafunction : String
  opposing_dentition : String
  systemic_flags : List String
deriving DecidableEq, Repr

/-- `SpanRecord` from `api.ts` (shape produced by the backend's
`span_detector.py`). -/
structure SpanRecord where
  span_id : String
  arch : String
  missing_teeth : List String
  mesial_abutment : Option String
  distal_abutment : Option String
  span_type : String
  cross_midline : Bool
  pier_abutments : List String
deriving DecidableEq, Repr

/-- `SpansResponse` from `api.ts`. -/
structure SpansResponse where
  maxilla_spans : List SpanRecord
  mandible_spans : List SpanRecord
  abutments : List String
deriving DecidableEq, Repr

/-- The parts of the `Ontology` type from `api.ts` that the store holds
(content is irrelevant to the store frame properties but the field exists
on the state). -/
structure Ontology where
  version : String
  locale : String
  engine_version : String
  ruleset_version : String
deriving DecidableEq, Repr

/-! ## Tooth chart (from `src/components/ToothChartFDI.tsx`) -/

/-- `UPPER` from `ToothChartFDI.tsx`:
`[...Array.from({length: 8}, (_, i) => String(18 - i)),
  ...Array.from({length: 8}, (_, i) => String(21 + i))]`. -/
def UPPER : List String :=
  (List.range 8).map (fun i => toString (18 - i)) ++
    (List.range 8).map (fun i => toString (21 + i))

/-- `LOWER` from `ToothChartFDI.tsx`:
`[...Array.from({length: 8}, (_, i) => String(48 - i)),
  ...Array.from({length: 8}, (_, i) => String(31 + i))]`. -/
def LOWER : List String :=
  (List.range 8).map (fun i => toString (48 - i)) ++
    (List.range 8).map (fun i => toString (31 + i))

/-- `type Arch = "maxilla" | "mandible"` from `ToothChartFDI.tsx`. -/
inductive Arch where
  | maxilla
  | mandible
deriving DecidableEq, Repr

/-- `getArch` from `ToothChartFDI.tsx`:
`code[0] === "1" || code[0] === "2" ? "maxilla" : "mandible"`
(`code[0]` of an empty string is `undefined`, which compares unequal). -/
def getArch (code : String) : Arch :=
  match code.data with
  | c :: _ => if c = '1' ∨ c = '2' then .maxilla else .mandible
  | [] => .mandible

/-- `getArchArray` from `ToothChartFDI.tsx`. -/
def getArchArray : Arch → List String
  | .maxilla => UPPER
  | .mandible => LOWER

/-! ## Store (from `src/store.ts`) -/

/-- The data fields of the zustand store `AppState` (actions excluded;
`abutmentHealth: Record<string, AbutHealth>` is modelled as a partial map). -/
structure AppState where
  missing : List String
  preview : Option SpansResponse
  enums : Option EnumsResponse
  abutmentHealth : String → Option AbutHealth
  patientRisk : PatientRisk
  ontology : Option Ontology
  riskInitialized : Bool

/-- `Partial<AbutHealth>`: each field present or absent. -/
structure AbutPatch where
  status : Option String
  mobility_miller : Option String
  crown_root_ratio : Option String
  enamel_ok_for_rbb : Option Bool
deriving DecidableEq, Repr

/-- JS spread `{ ...base, ...patch }`: a field of `patch`, when present,
overrides the field of `base`. -/
def applyPatch (base : AbutHealth) (patch : AbutPatch) : AbutHealth :=
  { status := patch.status.getD base.status
    mobility_miller := patch.mobility_miller.getD base.mobility_miller
    crown_root_ratio := patch.crown_root_ratio.getD base.crown_root_ratio
    enamel_ok_for_rbb := patch.enamel_ok_for_rbb.getD base.enamel_ok_for_rbb }

/-- `ensureAbutmentDefaults` from `src/store.ts`: if a record for `tooth`
already exists the state is returned unchanged, otherwise a copy of
`defaults` is inserted under `tooth`. -/
def ensureAbutmentDefaults (s : AppState) (tooth : String)
    (defaults : AbutHealth) : AppState :=
  match s.abutmentHealth tooth with
  | some _ => s
  | none =>
      { s with abutmentHealth :=
          fun t => if t = tooth then some defaults else s.abutmentHealth t }

/-- `patchAbutment` from `src/store.ts`:
`base = s.abutmentHealth[tooth] ?? { ...defaults }` and the map is updated at
`tooth` with `{ ...base, ...patch }`. -/
def patchAbutment (s : AppState) (tooth : String) (patch : AbutPatch)
    (defaults : AbutHealth) : AppState :=
  let base := (s.abutmentHealth tooth).getD defaults
  { s with abutmentHealth :=
      fun t => if t = tooth then some (applyPatch base patch)
               else s.abutmentHealth t }

/-! ## Default abutment records (from `AbutmentScreen.tsx` / `IntakeScreen.tsx`) -/

/-- The record builder returned by `useDefaults` in `src/pages/AbutmentScreen.tsx`:
each field is the first enum option's value, with literal fallbacks
`"present_sound"`, `"0"`, `">=1:1"` and `enamel_ok_for_rbb: true`. -/
def useDefaultsFn (enums : Option EnumsResponse) : AbutHealth :=
  { status := ((enums.bind (fun e => e.status_options.head?)).map Prod.fst).getD "present_sound"
    mobility_miller := ((enums.bind (fun e => e.mobility_options.head?)).map Prod.fst).getD "0"
    crown_root_ratio := ((enums.bind (fun e => e.crr_options.head?)).map Prod.fst).getD ">=1:1"
    enamel_ok_for_rbb := true }

/-- `defaultAbut` from `src/pages/IntakeScreen.tsx` (the same four fields,
written there a second time). -/
def defaultAbut (enums : Option EnumsResponse) : AbutHealth :=
  { status := ((enums.bind (fun e => e.status_options.head?)).map Prod.fst).getD "present_sound"
    mobility_miller := ((enums.bind (fun e => e.mobility_options.head?)).map Prod.fst).getD "0"
    crown_root_ratio := ((enums.bind (fun e => e.crr_options.head?)).map Prod.fst).getD ">=1:1"
    enamel_ok_for_rbb := true }

/-! ## Template filling

Both `templateName` (PlanScreen) and `applyTemplate` (ReportPage) run
`tpl.replace(/\x7b(\w+)\x7d/g, cb)` and differ only in the callback.  The
regex scan is modelled once (`braceTokens`, a left-to-right scanner equal to
the JS global-replace traversal: at `{` the maximal run of word characters
is taken and, when non-empty and followed by `}`, forms a match; otherwise
the characters are literal and scanning resumes after the `{`, which cannot
occur inside the word run). -/

/-- The values a template dictionary entry can hold (`string | number`),
plus JS `null`; an absent key is `Option.none` (JS `undefined`). -/
inductive JVal where
  | str (s : String)
  | num (n : Int)
  | null
deriving DecidableEq, Repr

/-- JS `String(v)` on a defined, non-null template value. -/
def jvalToString : JVal → String
  | .str s => s
  | .num n => toString n
  | .null => "null"

/-- JS `\w`: `[A-Za-z0-9_]`. -/
def isWordChar (c : Char) : Bool :=
  c.isAlpha || c.isDigit || c = '_'

/-- A token of the scanned template: literal characters or a placeholder key. -/
inductive TTok where
  | lit (s : List Char)
  | hole (k : String)
deriving DecidableEq, Repr

/-- The scanner state machine: `none` means not inside a potential match,
`some w` means a `{` followed by the word characters `w` has been read. -/
def braceTokensAux : List Char → Option (List Char) → List TTok
  | [], none => []
  | [], some w => [.lit ('{' :: w)]
  | c :: rest, none =>
      if c = '{' then braceTokensAux rest (some [])
      else .lit [c] :: braceTokensAux rest none
  | c :: rest, some w =>
      if c = '}' then
        if w.isEmpty then .lit ['{', '}'] :: braceTokensAux rest none
        else .hole (String.mk w) :: braceTokensAux rest none
      else if c = '{' then .lit ('{' :: w) :: braceTokensAux rest (some [])
      else if isWordChar c then braceTokensAux rest (some (w ++ [c]))
      else .lit (('{' :: w) ++ [c]) :: braceTokensAux rest none

/-- The token sequence of `tpl` under the shared regex `/\x7b(\w+)\x7d/g`. -/
def braceTokens (tpl : List Char) : List TTok :=
  braceTokensAux tpl none

/-- The placeholder keys occurring in a token sequence. -/
def tokKeys (ts : List TTok) : List String :=
  ts.filterMap (fun t => match t with | .lit _ => none | .hole k => some k)

/-- Rebuild the string, substituting `f` at each placeholder. -/
def runTemplate (f : String → List Char) : List TTok → List Char
  | [] => []
  | .lit s :: ts => s ++ runTemplate f ts
  | .hole k :: ts => f k ++ runTemplate f ts

/-- Rebuild the string, substituting `f` at each placeholder and collecting
the warnings `f` emits, in order. -/
def runTemplateW (f : String → List Char × List String) :
    List TTok → List Char × List String
  | [] => ([], [])
  | .lit s :: ts =>
      let r := runTemplateW f ts
      (s ++ r.1, r.2)
  | .hole k :: ts =>
      let r := runTemplateW f ts
      ((f k).1 ++ r.1, (f k).2 ++ r.2)

/-- `templateName` from `src/pages/PlanScreen.tsx`: the lenient filler
`tpl.replace(/\x7b(\w+)\x7d/g, (_, k) => String(fields[k] ?? ""))` —
an absent or `null` value becomes the empty string, silently. -/
def templateName (tpl : List Char) (fields : String → Option JVal) : List Char :=
  runTemplate
    (fun k =>
      match fields k with
      | none => []
      | some v => if v = JVal.null then [] else (jvalToString v).data)
    (braceTokens tpl)

/-- The replacement text `[[MISSING:ctx.k]]` of the strict filler. -/
def missingText (ctx k : String) : List Char :=
  ("[[MISSING:" ++ ctx ++ "." ++ k ++ "]]").data

/-- The warning message `Missing template var "k" in ctx`. -/
def missingWarn (ctx k : String) : String :=
  "Missing template var \"" ++ k ++ "\" in " ++ ctx

/-- `applyTemplate` from `src/pages/ReportPage.tsx`: the strict filler — a
value that is `undefined`, `null` or `""` emits a warning and renders as
`[[MISSING:ctx.k]]`; any other value renders as `String(v)`.  The result is
the filled string together with the warnings pushed to `warn`, in order. -/
def applyTemplate (tpl : List Char) (dict : String → Option JVal)
    (ctx : String) : List Char × List String :=
  runTemplateW
    (fun k =>
      match dict k with
      | none => (missingText ctx k, [missingWarn ctx k])
      | some v =>
          if v = JVal.null ∨ v = JVal.str "" then (missingText ctx k, [missingWarn ctx k])
          else ((jvalToString v).data, []))
    (braceTokens tpl)

/-! ## PlanScreen behaviour (from `src/pages/PlanScreen.tsx`) -/

/-- The initially opened plan of the plan screen (`PlanScreen.tsx`, fetch
effect): `const lastPlan = resp.case_plans[resp.case_plans.length - 1];
setOpenPlan(lastPlan?.plan_id ?? null)`. -/
def initialOpenPlan (resp : PlanResponse) : Option String :=
  (resp.case_plans.getLast?).map CasePlan.plan_id

/-- The initially opened span (`PlanScreen.tsx`):
`Object.keys(resp.span_options)[0] ?? null`. -/
def initialOpenSpan (resp : PlanResponse) : Option String :=
  (resp.span_options.head?).map Prod.fst

/-- The scoring-policy text the plan screen's Debug/Provenance section
renders (`PlanScreen.tsx`: `<code>{data.scoring_policy}</code>`). -/
def planScreenScoringPolicyText (resp : PlanResponse) : String :=
  resp.scoring_policy

/-- The unified-plan pick of the report assembly in `PlanScreen.tsx`
(`assembleReportViewModel`): `const top = plans.length ?
plans[plans.length - 1] : null` — the plan treated as best is the last
element of `case_plans`. -/
def planScreenReportTop (resp : PlanResponse) : Option CasePlan :=
  resp.case_plans.getLast?

/-! ## ReportPage assembly (from `src/pages/ReportPage.tsx`) -/

/-- The JS member access `response.span_options[sid]` on the modelled
association list: `some` exactly when the key is present. -/
def lookupSpanOptions (so : List (String × List OptionCard)) (sid : String) :
    Option (List OptionCard) :=
  (so.find? (fun p => p.1 = sid)).map Prod.snd

/-- The unified-plans list of `assembleReportViewModel` in `ReportPage.tsx`:
`plans.map(...)` over ALL of `response.case_plans`, preserving order (the
source comment: ranked, best is last).  Only the order-relevant skeleton
(the underlying plan of each row) is kept here; rendering of each row is
modelled separately. -/
def reportUnifiedPlansSource (resp : PlanResponse) : List CasePlan :=
  resp.case_plans

/-- `provenance` block of `assembleReportViewModel` in `ReportPage.tsx`:
`engine_version` and `ruleset_version` from `response.provenance`,
`scoring_policy: response.scoring_policy`, and `discarded_count` summing the
per-span discarded lists. -/
structure ReportProvenance where
  engine_version : Option String
  ruleset_version : Option String
  scoring_policy : String
  discarded_count : Option Nat
deriving DecidableEq, Repr

/-- The provenance/footer assembly of `ReportPage.tsx`'s
`assembleReportViewModel` (map-shaped `discarded_absolute`: the count is the
sum of the per-span list lengths). -/
def reportProvenanceVM (resp : PlanResponse) : ReportProvenance :=
  { engine_version := resp.provenance.bind ProvenanceData.engine_version
    ruleset_version := resp.provenance.bind ProvenanceData.ruleset_version
    scoring_policy := resp.scoring_policy
    discarded_count :=
      match resp.provenance.bind ProvenanceData.discarded_absolute with
      | none => none
      | some m => some ((m.map (fun p => p.2.length)).sum) }

/-! ## Planning engine

The Python engine (span detection, option generation, rule engine, scorer,
plan composer) is not among the checked-in sources; the definitions of this
section are modelled from the specification (§2–§7) and from the response
shapes declared in `src/api.ts`. -/

/-- An abutment-health entry of the request
(`{tooth, status, mobility_miller, crown_root_ratio, enamel_ok_for_rbb}`). -/
structure AbutmentRecord where
  tooth : String
  status : String
  mobility_miller : String
  crown_root_ratio : String
  enamel_ok_for_rbb : Bool
deriving DecidableEq, Repr

/-- Modelled from the spec: the explicit neutral default record against which
a tooth without an `abutment_health` entry is evaluated (§6: "teeth without
an entry are evaluated against an explicit neutral default, never assumed
healthy").  Field values follow the enum fallbacks the frontend declares. -/
def neutralAbutment (tooth : String) : AbutmentRecord :=
  { tooth := tooth
    status := "present_sound"
    mobility_miller := "0"
    crown_root_ratio := ">=1:1"
    enamel_ok_for_rbb := true }

/-- Modelled from the spec: resolution of a tooth's health record — the
submitted entry when one exists, the neutral default otherwise. -/
def lookupAbutment (recs : List AbutmentRecord) (tooth : String) : AbutmentRecord :=
  (recs.find? (fun r => r.tooth = tooth)).getD (neutralAbutment tooth)

/-- `PatientRiskProfile` + health records: the read-only context a rule's
applicability predicate sees (§4.3). -/
structure EvalCtx where
  abutment_health : List AbutmentRecord
  patient_risk : PatientRisk

/-- Modelled from the spec: the accessor through which rule evaluation reads
a tooth's health — absent teeth resolve to the neutral default. -/
def EvalCtx.abutmentFor (ctx : EvalCtx) (tooth : String) : AbutmentRecord :=
  lookupAbutment ctx.abutment_health tooth

/-- Modelled from the spec (§4.3): a declarative rule record
`(id, applicability predicate, effect)`; `effect ∈ {exclude, penalty(weight)}`
is encoded as `isAbsolute` with a `weight` used only by relative rules. -/
structure Rule where
  id : String
  isAbsolute : Bool
  weight : Nat
  applies : OptionCard → EvalCtx → Bool

/-- Modelled from the spec (§4.3, §4.5): a plan-level rule of the identical
predicate/effect shape, taking a full combination as context. -/
structure PlanRule where
  id : String
  isAbsolute : Bool
  weight : Nat
  applies : List (String × OptionCard) → EvalCtx → Bool

/-- Modelled from the spec: pure rule evaluation of one candidate — the
ordered absolute and relative hit sets. -/
def evalHits (rules : List Rule) (cand : OptionCard) (ctx : EvalCtx) : RuleHit :=
  { absolute := (rules.filter (fun r => r.isAbsolute && r.applies cand ctx)).map Rule.id
    relative := (rules.filter (fun r => !r.isAbsolute && r.applies cand ctx)).map Rule.id }

/-- Modelled from the spec (§4.4): `rank_score` = sum of the configured
weights of all matched relative rule ids. -/
def scoreOf (rules : List Rule) (cand : OptionCard) (ctx : EvalCtx) : Nat :=
  ((rules.filter (fun r => !r.isAbsolute && r.applies cand ctx)).map Rule.weight).sum

/-- A candidate annotated with its rule hits and rank score. -/
def evalCand (rules : List Rule) (ctx : EvalCtx) (cand : OptionCard) : OptionCard :=
  { cand with
    rule_hits := evalHits rules cand ctx
    rank_score := some (scoreOf rules cand ctx) }

/-- Ordering of surviving candidates: ascending rank score (stable sort, so
the enumeration order breaks ties deterministically, §4.4). -/
def rankLE (a b : OptionCard) : Prop :=
  a.rank_score.getD 0 ≤ b.rank_score.getD 0

instance : DecidableRel rankLE :=
  fun a b => Nat.decLe (a.rank_score.getD 0) (b.rank_score.getD 0)

/-- Modelled from the spec: the surviving (empty absolute hit set) candidates
of one span, scored and sorted ascending by rank score. -/
def survivingOf (rules : List Rule) (ctx : EvalCtx) (cands : List OptionCard) :
    List OptionCard :=
  List.insertionSort rankLE
    ((cands.map (evalCand rules ctx)).filter (fun c => c.rule_hits.absolute.isEmpty))

/-- Modelled from the spec: the discarded (non-empty absolute hit set)
candidates of one span, each tagged with its triggering absolute rule ids. -/
def discardedItemsOf (rules : List Rule) (ctx : EvalCtx) (cands : List OptionCard) :
    List DiscardedItem :=
  ((cands.map (evalCand rules ctx)).filter (fun c => !c.rule_hits.absolute.isEmpty)).map
    (fun c => { option_id := c.option_id, rule_ids := c.rule_hits.absolute })

/-- The `span_options` map of the response: span id → surviving ranked list. -/
def spanOptionsOf (rules : List Rule) (ctx : EvalCtx)
    (spans : List (String × List OptionCard)) : List (String × List OptionCard) :=
  spans.map (fun p => (p.1, survivingOf rules ctx p.2))

/-- The `provenance.discarded_absolute` map of the response: span id →
discarded candidates with rule ids. -/
def discardedOf (rules : List Rule) (ctx : EvalCtx)
    (spans : List (String × List OptionCard)) : List (String × List DiscardedItem) :=
  spans.map (fun p => (p.1, discardedItemsOf rules ctx p.2))

/-- Modelled from the spec: plan-level rule hits of one combination. -/
def planHits (prules : List PlanRule) (combo : List (String × OptionCard))
    (ctx : EvalCtx) : RuleHit :=
  { absolute := (prules.filter (fun r => r.isAbsolute && r.applies combo ctx)).map PlanRule.id
    relative := (prules.filter (fun r => !r.isAbsolute && r.applies combo ctx)).map PlanRule.id }

/-- Modelled from the spec (§4.5): `total_score` = sum of member rank scores
plus the weights of matched plan-level relative rules. -/
def planScoreOf (prules : List PlanRule) (combo : List (String × OptionCard))
    (ctx : EvalCtx) : Nat :=
  (combo.map (fun p => p.2.rank_score.getD 0)).sum +
    ((prules.filter (fun r => !r.isAbsolute && r.applies combo ctx)).map PlanRule.weight).sum

/-- The cross product of the per-span candidate lists: every way of choosing
exactly one option per span, in span order. -/
def combosOf : List (String × List OptionCard) → List (List (String × OptionCard))
  | [] => [[]]
  | (sid, opts) :: rest =>
      opts.flatMap (fun o => (combosOf rest).map (fun tail => (sid, o) :: tail))

/-- Modelled from the spec (§7): the distinct structured conditions the
engine signals instead of an ambiguous empty success. -/
inductive EngineError where
  | noFeasiblePlan
deriving DecidableEq, Repr

/-- The engine's successful response (the core fields of `PlanResponse`
plus the §7 approximation-fallback flag carried in provenance). -/
structure PlanOutput where
  span_options : List (String × List OptionCard)
  case_plans : List CasePlan
  discarded : List (String × List DiscardedItem)
  scoring_policy : String
  approx_fallback : Bool
deriving DecidableEq, Repr

/-- Build a `CasePlan` from a combination: the selection map records each
span's chosen option id. -/
def mkPlan (prules : List PlanRule) (ctx : EvalCtx) (idx : Nat)
    (combo : List (String × OptionCard)) : CasePlan :=
  { plan_id := "plan_" ++ toString idx
    selected := combo.map (fun p => (p.1, p.2.option_id))
    total_score := planScoreOf prules combo ctx
    plan_rule_hits := planHits prules combo ctx }

/-- Number the ordered combinations into case plans. -/
def numberPlans (prules : List PlanRule) (ctx : EvalCtx) :
    Nat → List (List (String × OptionCard)) → List CasePlan
  | _, [] => []
  | i, cb :: rest => mkPlan prules ctx i cb :: numberPlans prules ctx (i + 1) rest

/-- Plan ordering: descending total (penalty) score, so the best plan —
lowest penalty — sorts last (the convention the frontend assumes). -/
def planGE (prules : List PlanRule) (ctx : EvalCtx)
    (a b : List (String × OptionCard)) : Prop :=
  planScoreOf prules b ctx ≤ planScoreOf prules a ctx

instance (prules : List PlanRule) (ctx : EvalCtx) :
    DecidableRel (planGE prules ctx) :=
  fun a b => Nat.decLe (planScoreOf prules b ctx) (planScoreOf prules a ctx)

/-- Modelled from the spec (§7 CombinationOverflow): the documented greedy
fallback — each span's best (first-ranked) surviving option. -/
def greedyCombo (capped : List (String × List OptionCard)) :
    List (String × OptionCard) :=
  capped.filterMap (fun p => (p.2.head?).map (fun o => (p.1, o)))

/-- The engine configuration: rule tables, per-span top-K cap, global
combination ceiling, and the active scoring-policy identifier. -/
structure EngineConfig where
  rules : List Rule
  planRules : List PlanRule
  topK : Nat
  ceiling : Nat
  policy : String

/-- Modelled from the spec (§4.3–§4.5, §7): rule evaluation, scoring and
plan composition.  A span with zero surviving candidates, and likewise a
case where every combination is excluded by a plan-level absolute rule,
signals `NoFeasiblePlan`; a combination count above the ceiling falls back
to the greedy-best plan and marks the response approximate. -/
def planEngine (cfg : EngineConfig) (ctx : EvalCtx)
    (spans : List (String × List OptionCard)) : Except EngineError PlanOutput :=
  let so := spanOptionsOf cfg.rules ctx spans
  let disc := discardedOf cfg.rules ctx spans
  if so.any (fun p => p.2.isEmpty) then .error .noFeasiblePlan
  else
    let capped := so.map (fun p => (p.1, p.2.take cfg.topK))
    if (capped.map (fun p => p.2.length)).prod > cfg.ceiling then
      .ok { span_options := so
            case_plans := [mkPlan cfg.planRules ctx 0 (greedyCombo capped)]
            discarded := disc
            scoring_policy := cfg.policy
            approx_fallback := true }
    else
      let kept := (combosOf capped).filter
        (fun cb => (planHits cfg.planRules cb ctx).absolute.isEmpty)
      if kept.isEmpty then .error .noFeasiblePlan
      else
        .ok { span_options := so
              case_plans := numberPlans cfg.planRules ctx 0
                (List.insertionSort (planGE cfg.planRules ctx) kept)
              discarded := disc
              scoring_policy := cfg.policy
              approx_fallback := false }

/-! ## Span detection and option generation (modelled from §4.1–§4.2) -/

/-- Group the indexed tooth slots into maximal runs of missing slots; `acc`
holds the current run reversed. -/
def runsAux (isMiss : String → Bool) :
    List (Nat × String) → List (Nat × String) → List (List (Nat × String))
  | [], acc => if acc.isEmpty then [] else [acc.reverse]
  | x :: rest, acc =>
      if isMiss x.2 then runsAux isMiss rest (x :: acc)
      else if acc.isEmpty then runsAux isMiss rest acc
      else acc.reverse :: runsAux isMiss rest []

/-- Modelled from the spec (§4.1): one span from a maximal run — nearest
present neighbours as boundaries, `DISTAL_EXTENSION` when a boundary is
open, `cross_midline` when the run straddles the index-7/8 seam of the
16-slot arch order. -/
def mkSpanRecord (archName : String) (order : List String) (idx : Nat)
    (run : List (Nat × String)) : SpanRecord :=
  let firstIdx := (run.head?.map Prod.fst).getD 0
  let lastIdx := (run.getLast?.map Prod.fst).getD 0
  let mesial := if firstIdx = 0 then none else order.get? (firstIdx - 1)
  let distal := order.get? (lastIdx + 1)
  { span_id := archName ++ "_span_" ++ toString (idx + 1)
    arch := archName
    missing_teeth := run.map Prod.snd
    mesial_abutment := mesial
    distal_abutment := distal
    span_type := if mesial.isSome && distal.isSome then "BOUNDED" else "DISTAL_EXTENSION"
    cross_midline := decide (firstIdx ≤ 7) && decide (8 ≤ lastIdx)
    pier_abutments := [] }

/-- Modelled from the spec (§4.1): after all spans of an arch are built, a
present tooth that is the distal boundary of one span and the mesial
boundary of another is recorded as a pier abutment on its spans. -/
def markPiers (spans : List SpanRecord) : List SpanRecord :=
  let mesials := spans.filterMap SpanRecord.mesial_abutment
  let distals := spans.filterMap SpanRecord.distal_abutment
  let piers := distals.filter (fun t => mesials.contains t)
  spans.map (fun s =>
    let own := (s.mesial_abutment.toList ++ s.distal_abutment.toList).filter
      (fun t => piers.contains t)
    { s with pier_abutments := own })

/-- Modelled from the spec (§4.1): spans of one arch, walking the canonical
16-slot order. -/
def detectArchSpans (archName : String) (order : List String)
    (missing : List String) : List SpanRecord :=
  let runs := runsAux (fun t => missing.contains t) order.enum []
  markPiers ((runs.enum).map (fun p => mkSpanRecord archName order p.1 p.2))

/-- Modelled from the spec (§4.1): all spans of the case, maxilla first. -/
def detectSpans (missing : List String) : List SpanRecord :=
  detectArchSpans "maxilla" UPPER missing ++ detectArchSpans "mandible" LOWER missing

/-- Modelled from the spec (§4.2): whether a boundary abutment is strong
enough to carry a cantilever (mobility below the threshold). -/
def strongBoundary (h : AbutmentRecord) : Bool :=
  h.mobility_miller = "0" || h.mobility_miller = "1"

/-- Construct one raw candidate for a span. -/
def mkCard (span : SpanRecord) (family kind suffix : String) (meta : OptionMeta) :
    OptionCard :=
  { option_id := span.span_id ++ ":" ++ kind ++ suffix
    family := family
    kind := kind
    span_id := span.span_id
    arch := span.arch
    span_type := span.span_type
    length := span.missing_teeth.length
    rule_hits := { absolute := [], relative := [] }
    meta := meta
    rank_score := none }

/-- The empty candidate meta bag. -/
def noMeta : OptionMeta :=
  { site := none, pontic := none, required_abutment := none, abutments := none }

/-- Modelled from the spec (§4.2): the structural enumeration of candidates
for one span — single-tooth bounded spans offer fdp / cantilever (exactly
one strong boundary) / rbb (a bondable boundary) / implant_single / rpd;
multi-tooth bounded spans offer fdp / implant_fdp / rpd; distal extensions
offer a cantilever from the sole boundary, implants at the missing sites and
rpd; cross-midline and pier-abutment spans suppress the cantilever. -/
def generateOptions (span : SpanRecord) (health : List AbutmentRecord) :
    List OptionCard :=
  let boundaryPair : OptionMeta :=
    { noMeta with abutments := some { mesial := span.mesial_abutment, distal := span.distal_abutment } }
  let boundaries := span.mesial_abutment.toList ++ span.distal_abutment.toList
  let strongs := boundaries.filter (fun t => strongBoundary (lookupAbutment health t))
  let bondables := boundaries.filter (fun t => (lookupAbutment health t).enamel_ok_for_rbb)
  let raw :=
    if span.span_type = "BOUNDED" then
      if span.missing_teeth.length = 1 then
        [mkCard span "fixed" "fdp" "" boundaryPair] ++
        (if strongs.length = 1 then
          [mkCard span "fixed" "cantilever" ""
            { noMeta with required_abutment := strongs.head? }]
         else []) ++
        (if !bondables.isEmpty then [mkCard span "fixed" "rbb" "" boundaryPair] else []) ++
        [mkCard span "implant" "implant_single" ""
          { noMeta with site := span.missing_teeth.head? },
         mkCard span "removable" "rpd" "" noMeta]
      else
        [mkCard span "fixed" "fdp" "" boundaryPair,
         mkCard span "implant" "implant_fdp" "" boundaryPair,
         mkCard span "removable" "rpd" "" noMeta]
    else
      (if boundaries.length = 1 then
        [mkCard span "fixed" "cantilever" ""
          { noMeta with required_abutment := boundaries.head? }]
       else []) ++
      (span.missing_teeth.map (fun t =>
        mkCard span "implant" "implant_single" ("_" ++ t) { noMeta with site := some t })) ++
      [mkCard span "removable" "rpd" "" noMeta]
  if span.cross_midline || !span.pier_abutments.isEmpty then
    raw.filter (fun c => c.kind ≠ "cantilever")
  else raw

/-! ## The request boundary (modelled from §5–§6) -/

/-- The input snapshot of one request (§6). -/
structure Snapshot where
  missing : List String
  abutment_health : List AbutmentRecord
  patient_risk : PatientRisk
deriving DecidableEq, Repr

/-- Modelled from the spec: one full evaluation — duplicate missing entries
are deduplicated (§4.1), spans detected, candidates enumerated, rules
evaluated and plans composed.  A pure function of the snapshot. -/
def planRequest (cfg : EngineConfig) (snap : Snapshot) :
    Except EngineError PlanOutput :=
  let missing := snap.missing.dedup
  let spans := detectSpans missing
  let ctx : EvalCtx :=
    { abutment_health := snap.abutment_health, patient_risk := snap.patient_risk }
  planEngine cfg ctx (spans.map (fun s => (s.span_id, generateOptions s snap.abutment_health)))

/-- The server memory a stateful implementation could keep across requests
(§5 forbids using it: no session persistence). -/
structure ServerState where
  handled : List Snapshot
deriving DecidableEq, Repr

/-- Modelled from the spec (§5): the request handler — each request is
evaluated as a pure, stateless function of its input snapshot; the server
state is passed through untouched. -/
def planService (cfg : EngineConfig) (snap : Snapshot) (st : ServerState) :
    Except EngineError PlanOutput × ServerState :=
  (planRequest cfg snap, st)

/-! ## Auxiliary predicates and sample data -/

deriving instance DecidableEq for Except

/-- Option ids identify candidates: any two candidates of the case (across
all spans) with the same `option_id` are the same candidate. -/
def IdsInjective (spans : List (String × List OptionCard)) : Prop :=
  ∀ p ∈ spans, ∀ x ∈ p.2, ∀ q ∈ spans, ∀ y ∈ q.2,
    x.option_id = y.option_id → x = y

instance (spans : List (String × List OptionCard)) :
    Decidable (IdsInjective spans) := by
  unfold IdsInjective; infer_instance

/-- Forget the tooth code of an engine-side abutment record, leaving the
four health fields the frontend's `AbutHealth` carries. -/
def stripTooth (r : AbutmentRecord) : AbutHealth :=
  { status := r.status
    mobility_miller := r.mobility_miller
    crown_root_ratio := r.crown_root_ratio
    enamel_ok_for_rbb := r.enamel_ok_for_rbb }

/-- Sample frontend abutment record (the neutral values). -/
def abutA : AbutHealth :=
  { status := "present_sound", mobility_miller := "0"
    crown_root_ratio := ">=1:1", enamel_ok_for_rbb := true }

/-- Sample patient-risk profile. -/
def riskA : PatientRisk :=
  { caries_risk := "low", occlusal_scheme := "Favorable", parafunction := "none"
    opposing_dentition := "natural", systemic_flags := [] }

/-- Sample store state: tooth 13 has a record, no other tooth does. -/
def stateA : AppState :=
  { missing := ["14"]
    preview := none
    enums := none
    abutmentHealth := fun t => if t = "13" then some abutA else none
    patientRisk := riskA
    ontology := none
    riskInitialized := false }

/-- Sample partial edit: change only the mobility grade. -/
def patchA : AbutPatch :=
  { status := none, mobility_miller := some "2"
    crown_root_ratio := none, enamel_ok_for_rbb := none }

/-- Sample engine-side health record: tooth 16, grade-3 mobility. -/
def abutRec16 : AbutmentRecord :=
  { tooth := "16", status := "present_sound", mobility_miller := "3"
    crown_root_ratio := "<1:1", enamel_ok_for_rbb := false }

/-- Sample evaluation context. -/
def ctxA : EvalCtx :=
  { abutment_health := [abutRec16], patient_risk := riskA }

/-- Sample absolute rule: a cantilever whose required abutment has grade-3
mobility is contraindicated. -/
def ruleMob : Rule :=
  { id := "abs_mobility"
    isAbsolute := true
    weight := 0
    applies := fun c ctx =>
      c.kind = "cantilever" &&
        (ctx.abutmentFor ((c.meta.required_abutment).getD "")).mobility_miller = "3" }

/-- Sample cantilever candidate requiring tooth 16. -/
def cardCant : OptionCard :=
  { option_id := "s1:cantilever", family := "fixed", kind := "cantilever"
    span_id := "s1", arch := "maxilla", span_type := "BOUNDED", length := 1
    rule_hits := { absolute := [], relative := [] }
    meta := { noMeta with required_abutment := some "16" }
    rank_score := none }

/-- Sample removable candidate for the same span. -/
def cardRpd : OptionCard :=
  { option_id := "s1:rpd", family := "removable", kind := "rpd"
    span_id := "s1", arch := "maxilla", span_type := "BOUNDED", length := 1
    rule_hits := { absolute := [], relative := [] }
    meta := noMeta
    rank_score := none }

/-- Sample case: one span with the two candidates. -/
def spansA : List (String × List OptionCard) := [("s1", [cardCant, cardRpd])]

/-- Sample case: one span whose sole candidate the absolute rule excludes. -/
def spansB : List (String × List OptionCard) := [("s1", [cardCant])]

/-- Sample case: one span with one feasible candidate. -/
def spansW : List (String × List OptionCard) := [("s1", [cardRpd])]

/-- Sample engine configuration: no rules, top-1 cap, generous ceiling. -/
def cfgW : EngineConfig :=
  { rules := [], planRules := [], topK := 1, ceiling := 10, policy := "w1" }

/-- Sample engine configuration with the mobility rule. -/
def cfgB : EngineConfig :=
  { rules := [ruleMob], planRules := [], topK := 3, ceiling := 10, policy := "w1" }

/-- Sample engine configuration whose ceiling forces the greedy fallback. -/
def cfgC : EngineConfig :=
  { rules := [], planRules := [], topK := 1, ceiling := 0, policy := "w1" }

/-- The output `planEngine cfgW ctxA spansW` produces. -/
def outW : PlanOutput :=
  { span_options := [("s1", [{ cardRpd with rank_score := some 0 }])]
    case_plans := [{ plan_id := "plan_0", selected := [("s1", "s1:rpd")]
                     total_score := 0
                     plan_rule_hits := { absolute := [], relative := [] } }]
    discarded := [("s1", [])]
    scoring_policy := "w1"
    approx_fallback := false }

/-- The single case plan of `outW`. -/
def planW : CasePlan :=
  { plan_id := "plan_0", selected := [("s1", "s1:rpd")]
    total_score := 0, plan_rule_hits := { absolute := [], relative := [] } }

/-- Sample snapshot. -/
def snapW : Snapshot :=
  { missing := ["14"], abutment_health := [], patient_risk := riskA }

/-- Sample template `(a)-(b)` with braces around `a` and `b`. -/
def tplW : List Char := ['{', 'a', '}', '-', '{', 'b', '}']

/-- Sample template dictionary binding `a` and `b`. -/
def dictW : String → Option JVal := fun k =>
  if k = "a" then some (JVal.str "14")
  else if k = "b" then some (JVal.num 2)
  else none

/-- Sample plan response with one case plan. -/
def respW : PlanResponse :=
  { arch_summaries := [("maxilla", { kennedy_class := "III", modifications := 0 })]
    span_options := [("s1", [cardRpd])]
    case_plans := [planW]
    provenance := none
    scoring_policy := "policy_v1"
    relative_rules_snapshot := [] }

/-! ## Helper lemmas -/

theorem tokKeys_nil : tokKeys [] = [] := rfl

theorem tokKeys_lit (s : List Char) (ts : List TTok) :
    tokKeys (.lit s :: ts) = tokKeys ts := rfl

theorem tokKeys_hole (k : String) (ts : List TTok) :
    tokKeys (.hole k :: ts) = k :: tokKeys ts := rfl

theorem runTemplateW_agrees (f : String → List Char × List String)
    (g : String → List Char) (ts : List TTok)
    (h : ∀ k ∈ tokKeys ts, f k = (g k, [])) :
    runTemplateW f ts = (runTemplate g ts, []) := by
  induction ts with
  | nil => rfl
  | cons t ts ih =>
      cases t with
      | lit s =>
          have ih' := ih (fun k hk => h k (by rw [tokKeys_lit]; exact hk))
          simp [runTemplateW, runTemplate, ih']
      | hole k =>
          have hk := h k (by rw [tokKeys_hole]; exact List.mem_cons_self _ _)
          have ih' := ih (fun k' hk' =>
            h k' (by rw [tokKeys_hole]; exact List.mem_cons_of_mem _ hk'))
          simp [runTemplateW, runTemplate, ih', hk]

theorem mem_survivingOf {rules : List Rule} {ctx : EvalCtx}
    {cands : List OptionCard} {o : OptionCard} :
    o ∈ survivingOf rules ctx cands ↔
      (∃ c ∈ cands, evalCand rules ctx c = o) ∧ o.rule_hits.absolute = [] := by
  unfold survivingOf
  rw [List.mem_insertionSort, List.mem_filter]
  simp [List.isEmpty_iff]

theorem planEngine_ok_fields (cfg : EngineConfig) (ctx : EvalCtx)
    (spans : List (String × List OptionCard)) (out : PlanOutput)
    (h : planEngine cfg ctx spans = .ok out) :
    out.span_options = spanOptionsOf cfg.rules ctx spans ∧
    out.discarded = discardedOf cfg.rules ctx spans ∧
    out.scoring_policy = cfg.policy := by
  simp only [planEngine] at h
  split at h
  · exact Except.noConfusion h
  · split at h
    · injection h with h2
      subst h2
      exact ⟨rfl, rfl, rfl⟩
    · split at h
      · exact Except.noConfusion h
      · injection h with h2
        subst h2
        exact ⟨rfl, rfl, rfl⟩

theorem find?_assoc_of_nodup {β : Type} {l : List (String × β)}
    (hnd : (l.map Prod.fst).Nodup) {k : String} {v : β} (h : (k, v) ∈ l) :
    l.find? (fun p => p.1 = k) = some (k, v) := by
  induction l with
  | nil => cases h
  | cons a l ih =>
      rw [List.map_cons, List.nodup_cons] at hnd
      rcases List.mem_cons.mp h with he | h'
      · rw [← he]
        rw [List.find?_cons_of_pos]
        simp
      · have hka : ¬ (a.1 = k) := by
          intro hcontra
          exact hnd.1 (hcontra ▸ List.mem_map.mpr ⟨(k, v), h', rfl⟩)
        rw [List.find?_cons_of_neg]
        · exact ih hnd.2 h'
        · simp [hka]

theorem spanOptionsOf_keys (rules : List Rule) (ctx : EvalCtx)
    (spans : List (String × List OptionCard)) :
    (spanOptionsOf rules ctx spans).map Prod.fst = spans.map Prod.fst := by
  unfold spanOptionsOf
  rw [List.map_map]
  rfl

theorem combosOf_spec (l : List (String × List OptionCard)) :
    ∀ cb ∈ combosOf l, cb.map Prod.fst = l.map Prod.fst ∧
      ∀ x ∈ cb, ∃ opts, (x.1, opts) ∈ l ∧ x.2 ∈ opts := by
  induction l with
  | nil =>
      intro cb hcb
      simp only [combosOf, List.mem_singleton] at hcb
      subst hcb
      exact ⟨rfl, by simp⟩
  | cons hd tl ih =>
      obtain ⟨sid, opts⟩ := hd
      intro cb hcb
      simp only [combosOf, List.mem_flatMap, List.mem_map] at hcb
      obtain ⟨o, ho, tail, htail, rfl⟩ := hcb
      obtain ⟨hkeys, hmem⟩ := ih tail htail
      refine ⟨by simp [hkeys], ?_⟩
      intro x hx
      rcases List.mem_cons.mp hx with rfl | hx'
      · exact ⟨opts, List.mem_cons_self _ _, ho⟩
      · obtain ⟨opts', h', hm⟩ := hmem x hx'
        exact ⟨opts', List.mem_cons_of_mem _ h', hm⟩

theorem greedyCombo_spec (l : List (String × List OptionCard))
    (h : ∀ x ∈ l, x.2 ≠ []) :
    (greedyCombo l).map Prod.fst = l.map Prod.fst ∧
    ∀ x ∈ greedyCombo l, ∃ opts, (x.1, opts) ∈ l ∧ x.2 ∈ opts := by
  induction l with
  | nil => exact ⟨rfl, by simp [greedyCombo]⟩
  | cons hd tl ih =>
      obtain ⟨sid, opts⟩ := hd
      have hne : opts ≠ [] := h (sid, opts) (List.mem_cons_self _ _)
      obtain ⟨a, t, rfl⟩ : ∃ a t, opts = a :: t := by
        cases opts with
        | nil => exact absurd rfl hne
        | cons a t => exact ⟨a, t, rfl⟩
      obtain ⟨ihk, ihm⟩ := ih (fun x hx => h x (List.mem_cons_of_mem _ hx))
      have hstep : greedyCombo ((sid, a :: t) :: tl) = (sid, a) :: greedyCombo tl := by
        simp [greedyCombo]
      refine ⟨by simp [hstep, ihk], ?_⟩
      intro x hx
      rw [hstep] at hx
      rcases List.mem_cons.mp hx with rfl | hx'
      · exact ⟨a :: t, List.mem_cons_self _ _, List.mem_cons_self _ _⟩
      · obtain ⟨opts', h', hm⟩ := ihm x hx'
        exact ⟨opts', List.mem_cons_of_mem _ h', hm⟩

theorem mem_numberPlans {prules : List PlanRule} {ctx : EvalCtx} :
    ∀ {n : Nat} {l : List (List (String × OptionCard))} {p : CasePlan},
      p ∈ numberPlans prules ctx n l →
      ∃ i cb, cb ∈ l ∧ p = mkPlan prules ctx i cb := by
  intro n l
  induction l generalizing n with
  | nil => intro p h; cases h
  | cons cb l ih =>
      intro p h
      rcases List.mem_cons.mp h with rfl | h'
      · exact ⟨n, cb, List.mem_cons_self _ _, rfl⟩
      · obtain ⟨i, cb', hm, he⟩ := ih h'
        exact ⟨i, cb', List.mem_cons_of_mem _ hm, he⟩

theorem numberPlans_ne_nil {prules : List PlanRule} {ctx : EvalCtx} {n : Nat}
    {l : List (List (String × OptionCard))} (h : l ≠ []) :
    numberPlans prules ctx n l ≠ [] := by
  cases l with
  | nil => exact absurd rfl h
  | cons cb l => simp [numberPlans]

/-! ## Claim theorems -/

/-- C3: the planning engine is a pure, stateless function of the input
snapshot — two evaluations of identical snapshots, under arbitrary (and
arbitrarily different) prior server states, yield identical responses, and
the server state is left untouched. -/
theorem plan_request_pure_stateless (cfg : EngineConfig) (s1 s2 : Snapshot)
    (st1 st2 : ServerState) (h : s1 = s2) :
    (planService cfg s1 st1).1 = (planService cfg s2 st2).1 ∧
    (planService cfg s1 st1).2 = st1 := by
  subst h
  exact ⟨rfl, rfl⟩

/-- Witness for C3 at a concrete snapshot and two different prior states. -/
theorem plan_request_pure_stateless_witness :
    (planService cfgW snapW { handled := [] }).1 =
      (planService cfgW snapW { handled := [snapW] }).1 ∧
    (planService cfgW snapW { handled := [] }).2 = { handled := [] } :=
  plan_request_pure_stateless cfgW snapW snapW
    { handled := [] } { handled := [snapW] } rfl

/-- C5: for a non-empty `case_plans` list the plan screen initially opens the
last plan (its `plan_id`), and the report assembly of the plan screen treats
the last element as the best plan; the report page keeps all plans in the
given order. -/
theorem best_plan_is_last (resp : PlanResponse) (h : resp.case_plans ≠ []) :
    initialOpenPlan resp = some ((resp.case_plans.getLast h).plan_id) ∧
    planScreenReportTop resp = some (resp.case_plans.getLast h) ∧
    reportUnifiedPlansSource resp = resp.case_plans := by
  have hl := List.getLast?_eq_getLast resp.case_plans h
  exact ⟨by simp [initialOpenPlan, hl], by simp [planScreenReportTop, hl], rfl⟩

/-- Witness for C5 on a one-plan response. -/
theorem best_plan_is_last_witness :
    initialOpenPlan respW = some ((respW.case_plans.getLast (by decide)).plan_id) ∧
    planScreenReportTop respW = some (respW.case_plans.getLast (by decide)) ∧
    reportUnifiedPlansSource respW = respW.case_plans :=
  best_plan_is_last respW (by decide)

/-- C6: the tooth chart's arch arrays are exactly the canonical traversal
sequences 18…11,21…28 (maxilla) and 48…41,31…38 (mandible), selected per
tooth by `getArch`/`getArchArray`. -/
theorem arch_arrays_canonical :
    UPPER = ["18", "17", "16", "15", "14", "13", "12", "11",
             "21", "22", "23", "24", "25", "26", "27", "28"] ∧
    LOWER = ["48", "47", "46", "45", "44", "43", "42", "41",
             "31", "32", "33", "34", "35", "36", "37", "38"] ∧
    getArchArray Arch.maxilla = UPPER ∧
    getArchArray Arch.mandible = LOWER ∧
    (∀ t ∈ UPPER, getArch t = Arch.maxilla) ∧
    (∀ t ∈ LOWER, getArch t = Arch.mandible) :=
  ⟨by decide, by decide, rfl, rfl, by decide, by decide⟩

/-- C7: a tooth without an `abutment_health` entry is evaluated against the
explicit neutral default record, and the frontend's default abutment record
(identical in `AbutmentScreen.useDefaults` and `IntakeScreen.defaultAbut`)
is this neutral default: first enum value per field with fallbacks
`present_sound` / `0` / `>=1:1` and `enamel_ok_for_rbb = true`. -/
theorem neutral_default_for_missing_abutment :
    (∀ enums, useDefaultsFn enums = defaultAbut enums) ∧
    (useDefaultsFn none =
      { status := "present_sound", mobility_miller := "0"
        crown_root_ratio := ">=1:1", enamel_ok_for_rbb := true }) ∧
    (∀ tooth, stripTooth (neutralAbutment tooth) = useDefaultsFn none) ∧
    (∀ recs tooth, (∀ r ∈ recs, AbutmentRecord.tooth r ≠ tooth) →
        lookupAbutment recs tooth = neutralAbutment tooth) ∧
    (∀ recs pr tooth,
        EvalCtx.abutmentFor { abutment_health := recs, patient_risk := pr } tooth
          = lookupAbutment recs tooth) := by
  refine ⟨fun _ => rfl, rfl, fun _ => rfl, ?_, fun _ _ _ => rfl⟩
  intro recs tooth h
  unfold lookupAbutment
  rw [List.find?_eq_none.mpr ?_]
  · rfl
  · intro x hx
    simpa using h x hx

/-- Witness for C7: the frontend defaults agree; tooth 15, absent from the
submitted records, resolves to the neutral default. -/
theorem neutral_default_for_missing_abutment_witness :
    useDefaultsFn none = defaultAbut none ∧
    lookupAbutment [abutRec16] "15" = neutralAbutment "15" :=
  ⟨neutral_default_for_missing_abutment.1 none,
   neutral_default_for_missing_abutment.2.2.2.1 [abutRec16] "15" (by decide)⟩

/-- C8: both caller-visible surfaces propagate `scoring_policy` verbatim —
the report view-model's provenance block and the plan screen's display both
equal `response.scoring_policy` unchanged. -/
theorem scoring_policy_verbatim (resp : PlanResponse) :
    (reportProvenanceVM resp).scoring_policy = resp.scoring_policy ∧
    planScreenScoringPolicyText resp = resp.scoring_policy :=
  ⟨rfl, rfl⟩

/-- C10: `patchAbutment` touches only the edited tooth's record (merging the
patch over the existing record, or over the defaults when none exists) and
leaves every other tooth and every other store field unchanged;
`ensureAbutmentDefaults` returns the state unchanged when a record exists. -/
theorem abutment_edit_frame (s : AppState) (tooth : String) (patch : AbutPatch)
    (defaults : AbutHealth) :
    ((patchAbutment s tooth patch defaults).abutmentHealth tooth =
        some (applyPatch ((s.abutmentHealth tooth).getD defaults) patch)) ∧
    (∀ t, t ≠ tooth →
        (patchAbutment s tooth patch defaults).abutmentHealth t = s.abutmentHealth t) ∧
    ((patchAbutment s tooth patch defaults).missing = s.missing) ∧
    ((patchAbutment s tooth patch defaults).preview = s.preview) ∧
    ((patchAbutment s tooth patch defaults).enums = s.enums) ∧
    ((patchAbutment s tooth patch defaults).patientRisk = s.patientRisk) ∧
    ((patchAbutment s tooth patch defaults).ontology = s.ontology) ∧
    (∀ r, s.abutmentHealth tooth = some r →
        ensureAbutmentDefaults s tooth defaults = s) := by
  refine ⟨?_, ?_, rfl, rfl, rfl, rfl, rfl, ?_⟩
  · simp [patchAbutment]
  · intro t ht
    simp [patchAbutment, ht]
  · intro r hr
    simp [ensureAbutmentDefaults, hr]

/-- Witness for C10: editing tooth 13 leaves tooth 14 alone, and ensuring
defaults for the already-recorded tooth 13 is the identity. -/
theorem abutment_edit_frame_witness :
    ((patchAbutment stateA "13" patchA abutA).abutmentHealth "13" =
        some (applyPatch ((stateA.abutmentHealth "13").getD abutA) patchA)) ∧
    ((patchAbutment stateA "13" patchA abutA).abutmentHealth "14" =
        stateA.abutmentHealth "14") ∧
    ensureAbutmentDefaults stateA "13" abutA = stateA := by
  have h := abutment_edit_frame stateA "13" patchA abutA
  exact ⟨h.1, h.2.1 "14" (by decide), h.2.2.2.2.2.2.2 abutA (by decide)⟩

/-- C9: on any template whose placeholders all resolve to defined, non-null,
non-empty values, the lenient filler `templateName` (PlanScreen) and the
strict filler `applyTemplate` (ReportPage) produce the same string, and the
strict filler emits no warnings. -/
theorem template_fillers_agree (tpl : List Char) (d : String → Option JVal)
    (ctx : String)
    (h : ∀ k ∈ tokKeys (braceTokens tpl),
        ∃ v, d k = some v ∧ v ≠ JVal.null ∧ v ≠ JVal.str "") :
    applyTemplate tpl d ctx = (templateName tpl d, []) := by
  unfold applyTemplate templateName
  apply runTemplateW_agrees
  intro k hk
  obtain ⟨v, hv, hnull, hempty⟩ := h k hk
  have hc : ¬ (v = JVal.null ∨ v = JVal.str "") := by
    rintro (h1 | h2)
    · exact hnull h1
    · exact hempty h2
  simp only [hv, if_neg hc, if_neg hnull]

/-- Witness for C9 on the template `-` joining two placeholders, with a
string value and a numeric value. -/
theorem template_fillers_agree_witness :
    applyTemplate tplW dictW "options.fdp" = (templateName tplW dictW, []) := by
  apply template_fillers_agree
  intro k hk
  have hkeys : tokKeys (braceTokens tplW) = ["a", "b"] := by decide
  rw [hkeys] at hk
  simp only [List.mem_cons, List.not_mem_nil, or_false] at hk
  rcases hk with rfl | rfl
  · exact ⟨JVal.str "14", rfl, by decide, by decide⟩
  · exact ⟨JVal.num 2, rfl, by decide, by decide⟩

/-- C1: a candidate whose absolute rule-hit set is non-empty never appears
(by option id) in any list of the `span_options` map, appears in the
provenance's discarded map under its span together with its triggering
absolute rule ids, and every successful engine response exposes exactly
these two maps. -/
theorem absolute_hits_excluded (rules : List Rule) (ctx : EvalCtx)
    (spans : List (String × List OptionCard)) (hinj : IdsInjective spans)
    (sid : String) (cands : List OptionCard) (hs : (sid, cands) ∈ spans)
    (c : OptionCard) (hc : c ∈ cands)
    (habs : (evalHits rules c ctx).absolute ≠ []) :
    (∀ q ∈ spanOptionsOf rules ctx spans, ∀ o ∈ q.2, o.option_id ≠ c.option_id) ∧
    (∃ items, (sid, items) ∈ discardedOf rules ctx spans ∧
        ({ option_id := c.option_id,
           rule_ids := (evalHits rules c ctx).absolute } : DiscardedItem) ∈ items) ∧
    (∀ cfg : EngineConfig, ∀ out : PlanOutput, cfg.rules = rules →
        planEngine cfg ctx spans = .ok out →
        out.span_options = spanOptionsOf rules ctx spans ∧
        out.discarded = discardedOf rules ctx spans) := by
  refine ⟨?_, ?_, ?_⟩
  · rintro q hq o ho heq
    unfold spanOptionsOf at hq
    obtain ⟨p, hp, rfl⟩ := List.mem_map.mp hq
    obtain ⟨⟨c', hc', hco⟩, hoabs⟩ := mem_survivingOf.mp ho
    have hid : c'.option_id = c.option_id := by
      rw [← hco] at heq
      exact heq
    have hcc : c' = c := hinj p hp c' hc' (sid, cands) hs c hc hid
    apply habs
    rw [hcc] at hco
    rw [← hco] at hoabs
    exact hoabs
  · refine ⟨discardedItemsOf rules ctx cands, ?_, ?_⟩
    · exact List.mem_map.mpr ⟨(sid, cands), hs, rfl⟩
    · unfold discardedItemsOf
      apply List.mem_map.mpr
      refine ⟨evalCand rules ctx c, ?_, rfl⟩
      apply List.mem_filter.mpr
      refine ⟨List.mem_map_of_mem _ hc, ?_⟩
      simp [evalCand, List.isEmpty_iff, habs]
  · intro cfg out hr hok
    subst hr
    exact ⟨(planEngine_ok_fields cfg ctx spans out hok).1,
           (planEngine_ok_fields cfg ctx spans out hok).2.1⟩

/-- Witness for C1: with the grade-3-mobility rule, the cantilever candidate
of the sample span is discarded with that rule id. -/
theorem absolute_hits_excluded_witness :
    (∀ q ∈ spanOptionsOf [ruleMob] ctxA spansA, ∀ o ∈ q.2,
        o.option_id ≠ cardCant.option_id) ∧
    (∃ items, ("s1", items) ∈ discardedOf [ruleMob] ctxA spansA ∧
        ({ option_id := cardCant.option_id,
           rule_ids := (evalHits [ruleMob] cardCant ctxA).absolute } : DiscardedItem) ∈ items) := by
  have h := absolute_hits_excluded [ruleMob] ctxA spansA (by decide)
    "s1" [cardCant, cardRpd] (by decide) cardCant (by decide) (by decide)
  exact ⟨h.1, h.2.1⟩

theorem capped_keys (so : List (String × List OptionCard)) (k : Nat) :
    (so.map (fun p => (p.1, p.2.take k))).map Prod.fst = so.map Prod.fst := by
  rw [List.map_map]
  rfl

theorem capped_mem (so : List (String × List OptionCard)) (k : Nat)
    {x : String × OptionCard}
    (h : ∃ opts, (x.1, opts) ∈ so.map (fun p => (p.1, p.2.take k)) ∧ x.2 ∈ opts) :
    ∃ opts, (x.1, opts) ∈ so ∧ x.2 ∈ opts := by
  obtain ⟨opts, hin, hxm⟩ := h
  obtain ⟨q, hq, he⟩ := List.mem_map.mp hin
  have h1 : q.1 = x.1 := congrArg Prod.fst he
  have h2 : q.2.take k = opts := congrArg Prod.snd he
  refine ⟨q.2, ?_, ?_⟩
  · have hpair : (x.1, q.2) = q := by rw [← h1]
    exact hpair ▸ hq
  · rw [← h2] at hxm
    exact List.take_subset _ _ hxm

theorem planEngine_ok_plans (cfg : EngineConfig) (ctx : EvalCtx)
    (spans : List (String × List OptionCard)) (out : PlanOutput)
    (hK : 1 ≤ cfg.topK) (hok : planEngine cfg ctx spans = .ok out)
    (p : CasePlan) (hp : p ∈ out.case_plans) :
    ∃ i combo, p = mkPlan cfg.planRules ctx i combo ∧
      combo.map Prod.fst = (spanOptionsOf cfg.rules ctx spans).map Prod.fst ∧
      ∀ x ∈ combo, ∃ opts, (x.1, opts) ∈ spanOptionsOf cfg.rules ctx spans ∧
        x.2 ∈ opts := by
  simp only [planEngine] at hok
  split at hok
  case isTrue h1 => exact Except.noConfusion hok
  case isFalse h1 =>
    have hso_ne : ∀ q ∈ spanOptionsOf cfg.rules ctx spans, q.2 ≠ [] := by
      intro q hq hqe
      exact h1 (List.any_eq_true.mpr ⟨q, hq, by simp [hqe]⟩)
    have hcap_ne : ∀ x ∈ (spanOptionsOf cfg.rules ctx spans).map
        (fun p => (p.1, p.2.take cfg.topK)), x.2 ≠ [] := by
      intro x hx
      obtain ⟨q, hq, he⟩ := List.mem_map.mp hx
      have h2 : q.2.take cfg.topK = x.2 := congrArg Prod.snd he
      rw [← h2]
      intro h0
      rcases List.take_eq_nil_iff.mp h0 with hk0 | hq0
      · omega
      · exact hso_ne q hq hq0
    split at hok
    case isTrue h2 =>
      injection hok with h3
      subst h3
      obtain hpp := List.mem_singleton.mp hp
      obtain ⟨hk, hm⟩ := greedyCombo_spec _ hcap_ne
      refine ⟨0, greedyCombo ((spanOptionsOf cfg.rules ctx spans).map
        (fun p => (p.1, p.2.take cfg.topK))), hpp, ?_, ?_⟩
      · rw [hk, capped_keys]
      · intro x hx
        exact capped_mem _ _ (hm x hx)
    case isFalse h2 =>
      split at hok
      case isTrue h3 => exact Except.noConfusion hok
      case isFalse h3 =>
        injection hok with h4
        subst h4
        obtain ⟨i, cb, hcb, hpp⟩ := mem_numberPlans hp
        have hcb' := (List.mem_insertionSort _).mp hcb
        have hcb'' := (List.mem_filter.mp hcb').1
        obtain ⟨hk, hm⟩ := combosOf_spec _ cb hcb''
        refine ⟨i, cb, hpp, ?_, ?_⟩
        · rw [hk, capped_keys]
        · intro x hx
          exact capped_mem _ _ (hm x hx)

/-- C2: in every successful engine response, every case plan's selection map
has exactly the span ids of `span_options` as keys — none omitted, none
duplicated — and each selected option id belongs to that span's surviving
list; consequently the report assembly's unguarded lookup of
`span_options[sid]` finds a list for every selection entry. -/
theorem case_plan_selection_exact (cfg : EngineConfig) (ctx : EvalCtx)
    (spans : List (String × List OptionCard))
    (hkeys : (spans.map Prod.fst).Nodup) (hK : 1 ≤ cfg.topK)
    (out : PlanOutput) (hok : planEngine cfg ctx spans = .ok out)
    (p : CasePlan) (hp : p ∈ out.case_plans) :
    p.selected.map Prod.fst = out.span_options.map Prod.fst ∧
    (p.selected.map Prod.fst).Nodup ∧
    (∀ sel ∈ p.selected, ∃ opts,
        lookupSpanOptions out.span_options sel.1 = some opts ∧
        sel.2 ∈ opts.map OptionCard.option_id) := by
  obtain ⟨hso, -, -⟩ := planEngine_ok_fields cfg ctx spans out hok
  obtain ⟨i, combo, hpp, hck, hcm⟩ := planEngine_ok_plans cfg ctx spans out hK hok p hp
  subst hpp
  have hsel : (mkPlan cfg.planRules ctx i combo).selected =
      combo.map (fun x => (x.1, x.2.option_id)) := rfl
  have hkeys2 : (mkPlan cfg.planRules ctx i combo).selected.map Prod.fst =
      combo.map Prod.fst := by
    rw [hsel, List.map_map]
    rfl
  have hkeys3 : (mkPlan cfg.planRules ctx i combo).selected.map Prod.fst =
      out.span_options.map Prod.fst := by
    rw [hkeys2, hck, ← hso]
  have hnodup_so : (out.span_options.map Prod.fst).Nodup := by
    rw [hso, spanOptionsOf_keys]
    exact hkeys
  refine ⟨hkeys3, by rw [hkeys3]; exact hnodup_so, ?_⟩
  intro sel hsel'
  rw [hsel] at hsel'
  obtain ⟨x, hx, rfl⟩ := List.mem_map.mp hsel'
  obtain ⟨opts, hin, hxm⟩ := hcm x hx
  refine ⟨opts, ?_, List.mem_map_of_mem _ hxm⟩
  rw [hso]
  unfold lookupSpanOptions
  rw [find?_assoc_of_nodup ?nodup hin]
  · rfl
  case nodup =>
    rw [spanOptionsOf_keys]
    exact hkeys

/-- Witness for C2 on a one-span case with one feasible candidate. -/
theorem case_plan_selection_exact_witness :
    planEngine cfgW ctxA spansW = .ok outW ∧
    (planW.selected.map Prod.fst = outW.span_options.map Prod.fst ∧
     (planW.selected.map Prod.fst).Nodup ∧
     (∀ sel ∈ planW.selected, ∃ opts,
         lookupSpanOptions outW.span_options sel.1 = some opts ∧
         sel.2 ∈ opts.map OptionCard.option_id)) := by
  refine ⟨by decide, ?_⟩
  exact case_plan_selection_exact cfgW ctxA spansW (by decide) (by decide)
    outW (by decide) planW (by decide)

/-- C4: a span with zero surviving candidates makes the engine signal the
distinct `NoFeasiblePlan` condition rather than answer successfully; every
successful response carries a non-empty `case_plans` list; and exceeding the
combination ceiling yields a success explicitly flagged as an approximation
fallback (`CombinationOverflow` handling), never an ordinary empty success. -/
theorem no_silent_empty_plans (cfg : EngineConfig) (ctx : EvalCtx)
    (spans : List (String × List OptionCard)) :
    ((∃ q ∈ spanOptionsOf cfg.rules ctx spans, q.2 = []) →
        planEngine cfg ctx spans = .error .noFeasiblePlan) ∧
    (∀ out, planEngine cfg ctx spans = .ok out → out.case_plans ≠ []) ∧
    ((∀ q ∈ spanOptionsOf cfg.rules ctx spans, q.2 ≠ []) →
      ((spanOptionsOf cfg.rules ctx spans).map
          (fun q => (q.2.take cfg.topK).length)).prod > cfg.ceiling →
      ∃ out, planEngine cfg ctx spans = .ok out ∧ out.approx_fallback = true ∧
        out.case_plans ≠ []) := by
  refine ⟨?_, ?_, ?_⟩
  · rintro ⟨q, hq, hqe⟩
    have hc : (spanOptionsOf cfg.rules ctx spans).any (fun p => p.2.isEmpty) = true :=
      List.any_eq_true.mpr ⟨q, hq, by simp [hqe]⟩
    simp only [planEngine]
    rw [if_pos hc]
  · intro out hok
    simp only [planEngine] at hok
    split at hok
    case isTrue h1 => exact Except.noConfusion hok
    case isFalse h1 =>
      split at hok
      case isTrue h2 =>
        injection hok with h3
        subst h3
        simp
      case isFalse h2 =>
        split at hok
        case isTrue h3 => exact Except.noConfusion hok
        case isFalse h3 =>
          injection hok with h4
          subst h4
          apply numberPlans_ne_nil
          intro hnil
          have hperm := List.perm_insertionSort (planGE cfg.planRules ctx)
            ((combosOf ((spanOptionsOf cfg.rules ctx spans).map
              (fun p => (p.1, p.2.take cfg.topK)))).filter
              (fun cb => (planHits cfg.planRules cb ctx).absolute.isEmpty))
          rw [hnil] at hperm
          exact h3 (by rw [hperm.nil_eq.symm]; rfl)
  · intro hne hovf
    have hc1 : ¬ ((spanOptionsOf cfg.rules ctx spans).any
        (fun p => p.2.isEmpty) = true) := by
      rw [List.any_eq_true]
      rintro ⟨x, hx, hxe⟩
      exact hne x hx (by simpa using hxe)
    simp only [planEngine]
    rw [if_neg hc1]
    have hc2 : (((spanOptionsOf cfg.rules ctx spans).map
        (fun p => (p.1, p.2.take cfg.topK))).map (fun p => p.2.length)).prod >
        cfg.ceiling := by
      rw [List.map_map]
      exact hovf
    rw [if_pos hc2]
    exact ⟨_, rfl, rfl, by simp⟩

/-- Witness for C4: the rule-excluded span triggers `NoFeasiblePlan`, and a
zero ceiling triggers the flagged greedy fallback. -/
theorem no_silent_empty_plans_witness :
    planEngine cfgB ctxA spansB = .error .noFeasiblePlan ∧
    (∃ out, planEngine cfgC ctxA spansW = .ok out ∧ out.approx_fallback = true ∧
        out.case_plans ≠ []) := by
  constructor
  · exact (no_silent_empty_plans cfgB ctxA spansB).1 (by decide)
  · exact (no_silent_empty_plans cfgC ctxA spansW).2.2 (by decide) (by decide)

end CDSS
